import Mathlib

/-!
# Shallow embedding of the StarkHive auth core (`AuthService`)

This file embeds the credential/session lifecycle of `AuthService`
(registration, login, refresh-token rotation, password reset, role
promotion) as pure Lean functions over an explicit persistence state,
and proves the specification claims about them.

Modelling conventions:
* The TypeORM repositories become lists inside an `AuthState` record;
  `findOne` is `List.find?`, `save` replaces the row with the same id
  (or appends a fresh row), `update` maps over matching rows,
  `delete` filters.
* `bcrypt.hash` is modelled as the injective constructor of the opaque
  wrapper type `BHash`; `bcrypt.compare` inverts it by decidable
  equality.  This captures exactly the compare semantics the code
  relies on (a digest verifies precisely against its preimage).
* JWTs are modelled as a structured `Token` carrying subject, email,
  signing secret and issue/expiry instants; `jwtService.verifyAsync`
  checks the secret and the expiry against the state clock.  Arbitrary
  non-JWT caller input is the `Token.garbage` constructor.
* `new Date()` is the `now : Nat` field of the state (minutes);
  `crypto.randomBytes` and uuid generation draw from the `rng` counter.
* Thrown exceptions become `Except AuthError`; every operation returns
  the (possibly partially mutated) state alongside the result, because
  awaited repository writes persist even when a later step throws.
* The environment faults the claims mention are injected through two
  state flags: `mailFail` (the `mailService.sendEmail` call rejects)
  and `dbUpdateFail` (the `userRepository.update` call rejects).
-/

inductive UserRole where
  | USER
  | ADMIN
  | SUPER_ADMIN
deriving DecidableEq, Repr

/-- Model of a bcrypt digest of a value of type `α`: an opaque wrapper
whose constructor is the (collision-free) hash and whose field is never
read except by `bcryptCompare`. -/
structure BHash (α : Type) where
  pre : α
deriving DecidableEq, Repr

def bcryptHash {α : Type} (x : α) : BHash α := ⟨x⟩

def bcryptCompare {α : Type} [DecidableEq α] (x : α) (h : BHash α) : Bool :=
  x == h.pre

/-- Claims of a signed JWT as `jwtService.signAsync` embeds them,
together with the secret it was signed with and the expiry instant. -/
structure Jwt where
  sub : String
  email : String
  secret : String
  iat : Nat
  exp : Nat
deriving DecidableEq, Repr

/-- A string presented as a token: either an actual signed JWT or any
other string (which fails verification). -/
inductive Token where
  | signed (j : Jwt)
  | garbage (s : String)
deriving DecidableEq, Repr

structure JwtPayload where
  sub : String
  email : String
deriving DecidableEq, Repr

/-- `user.entity.ts` row: unique email, bcrypt-hashed password, role,
optional bcrypt hash of the latest refresh token. -/
structure User where
  id : String
  email : String
  password : BHash String
  role : UserRole
  refreshToken : Option (BHash Token)
deriving DecidableEq, Repr

/-- `Omit<User, 'password'>`, the shape `register`/`validateUser`
return. -/
structure SafeUser where
  id : String
  email : String
  role : UserRole
  refreshToken : Option (BHash Token)
deriving DecidableEq, Repr

/-- `password-reset.entity.ts` row: owning user, opaque token, absolute
expiry. -/
structure PasswordReset where
  id : Nat
  userId : String
  token : String
  expiresAt : Nat
deriving DecidableEq, Repr

structure Email where
  recipient : String
  subject : String
  body : String
deriving DecidableEq, Repr

/-- The persistence / environment state threaded through the service. -/
structure AuthState where
  users : List User
  resets : List PasswordReset
  sentEmails : List Email
  now : Nat
  nextResetId : Nat
  rng : Nat
  mailFail : Bool
  dbUpdateFail : Bool
deriving DecidableEq, Repr

/-- The distinct failure kinds the service surfaces (each constructor
corresponds to one `throw` site / message in `auth.service.ts`). -/
inductive AuthError where
  | unauthorizedPromote
  | targetNotFound
  | emailAlreadyExists
  | invalidRefreshToken
  | invalidCredentials
  | invalidOrExpiredResetToken
  | deliveryError
  | repoError
deriving DecidableEq, Repr

def JWT_SECRET : String := "jwt-secret"

def JWT_REFRESH_SECRET : String := "jwt-refresh-secret"

/-- `userRepository.findOne({ where: { id } })`. -/
def findUserById (st : AuthState) (id : String) : Option User :=
  st.users.find? (fun u => u.id == id)

/-- `userRepository.findOne({ where: { email } })`. -/
def findUserByEmail (st : AuthState) (email : String) : Option User :=
  st.users.find? (fun u => u.email == email)

/-- `userRepository.save(u)`: replace the row(s) with `u`'s id, or
append when no such row exists. -/
def saveUser (st : AuthState) (u : User) : AuthState :=
  if st.users.any (fun v => v.id == u.id) then
    { st with users := st.users.map (fun v => if v.id == u.id then u else v) }
  else
    { st with users := st.users ++ [u] }

/-- `userRepository.update(userId, { refreshToken })`, subject to the
injected persistence fault. -/
def updateUserRow (st : AuthState) (userId : String) (h : BHash Token) :
    Except AuthError AuthState :=
  if st.dbUpdateFail then
    .error .repoError
  else
    .ok { st with
          users := st.users.map (fun v =>
            if v.id == userId then { v with refreshToken := some h } else v) }

/-- `passwordResetRepository.findOne({ where: { token } })`. -/
def findResetByToken (st : AuthState) (token : String) : Option PasswordReset :=
  st.resets.find? (fun r => r.token == token)

/-- `jwtService.verifyAsync(token, { secret })` at the state clock:
claims come back only for a token signed with that secret and not yet
expired. -/
def verifyJwt (t : Token) (secret : String) (now : Nat) : Option JwtPayload :=
  match t with
  | .garbage _ => none
  | .signed j =>
      if j.secret == secret && now < j.exp then
        some { sub := j.sub, email := j.email }
      else
        none

structure TokenPair where
  accessToken : Token
  refreshToken : Token
deriving DecidableEq, Repr

/-- `AuthService.getTokens`: a 15-minute access token and a 7-day
(10080-minute) refresh token, signed with the two distinct secrets. -/
def getTokens (st : AuthState) (userId email : String) : TokenPair :=
  { accessToken :=
      .signed { sub := userId, email := email, secret := JWT_SECRET,
                iat := st.now, exp := st.now + 15 },
    refreshToken :=
      .signed { sub := userId, email := email, secret := JWT_REFRESH_SECRET,
                iat := st.now, exp := st.now + 10080 } }

/-- `AuthService.updateRefreshToken`: bcrypt-hash the new refresh token
and persist it on the user row. -/
def updateRefreshToken (st : AuthState) (userId : String) (rt : Token) :
    Except AuthError AuthState :=
  updateUserRow st userId (bcryptHash rt)

/-- `AuthService.promoteToAdmin`. -/
def promoteToAdmin (st : AuthState) (requesterId targetUserId : String) :
    Except AuthError User × AuthState :=
  match findUserById st requesterId with
  | none => (.error .unauthorizedPromote, st)
  | some requester =>
      if requester.role = UserRole.SUPER_ADMIN then
        match findUserById st targetUserId with
        | none => (.error .targetNotFound, st)
        | some targetUser =>
            let targetUser' := { targetUser with role := UserRole.ADMIN }
            (.ok targetUser', saveUser st targetUser')
      else
        (.error .unauthorizedPromote, st)

/-- `register-user.dto.ts` is not in the extract; the fields are the
ones `AuthService.register` destructures from it. -/
structure RegisterDto where
  email : String
  password : String
  role : UserRole
deriving DecidableEq, Repr

/-- `AuthService.register`.  `userRepository.create` builds an entity
with no id and `save` inserts it under a freshly generated uuid
primary key (drawn here from the `rng` counter), so this save is an
insert, never an overwrite of an existing row. -/
def register (st : AuthState) (dto : RegisterDto) :
    Except AuthError SafeUser × AuthState :=
  match findUserByEmail st dto.email with
  | some _ => (.error .emailAlreadyExists, st)
  | none =>
      let hashed := bcryptHash dto.password
      let newId := "user-" ++ toString st.rng
      let user : User :=
        { id := newId, email := dto.email, password := hashed,
          role := dto.role, refreshToken := none }
      let st1 := { st with rng := st.rng + 1, users := st.users ++ [user] }
      (.ok { id := user.id, email := user.email, role := user.role,
             refreshToken := user.refreshToken }, st1)

/-- `AuthService.validateUser`. -/
def validateUser (st : AuthState) (email password : String) : Option SafeUser :=
  match findUserByEmail st email with
  | some u =>
      if bcryptCompare password u.password then
        some { id := u.id, email := u.email, role := u.role,
               refreshToken := u.refreshToken }
      else
        none
  | none => none

/-- The `try` body of `AuthService.refreshTokens`: verify the JWT, load
the user, check the stored binding, then mint and rotate. -/
def refreshTokensCore (st : AuthState) (rt : Token) :
    Except AuthError (TokenPair × AuthState) :=
  match verifyJwt rt JWT_REFRESH_SECRET st.now with
  | none => .error .invalidRefreshToken
  | some payload =>
      match findUserById st payload.sub with
      | none => .error .invalidRefreshToken
      | some user =>
          match user.refreshToken with
          | none => .error .invalidRefreshToken
          | some stored =>
              if bcryptCompare rt stored then
                let tokens := getTokens st user.id user.email
                match updateRefreshToken st user.id tokens.refreshToken with
                | .error e => .error e
                | .ok st1 => .ok (tokens, st1)
              else
                .error .invalidRefreshToken

/-- `AuthService.refreshTokens`: the catch-all wraps every internal
failure as the single `Invalid refresh token` error. -/
def refreshTokens (st : AuthState) (rt : Token) :
    Except AuthError TokenPair × AuthState :=
  match refreshTokensCore st rt with
  | .ok (tokens, st1) => (.ok tokens, st1)
  | .error _ => (.error .invalidRefreshToken, st)

structure LogInDto where
  email : String
  password : String
deriving DecidableEq, Repr

/-- `AuthService.login`. -/
def login (st : AuthState) (dto : LogInDto) :
    Except AuthError TokenPair × AuthState :=
  match validateUser st dto.email dto.password with
  | none => (.error .invalidCredentials, st)
  | some user =>
      let tokens := getTokens st user.id user.email
      match updateRefreshToken st user.id tokens.refreshToken with
      | .error e => (.error e, st)
      | .ok st1 => (.ok tokens, st1)

/-- `mailService.sendEmail`, subject to the injected delivery fault. -/
def sendEmail (st : AuthState) (e : Email) : Except AuthError AuthState :=
  if st.mailFail then
    .error .deliveryError
  else
    .ok { st with sentEmails := st.sentEmails ++ [e] }

/-- `crypto.randomBytes(32).toString(\x27hex\x27)`, modelled as a draw
from the state counter. -/
def randomToken (st : AuthState) : String × AuthState :=
  ("tok-" ++ toString st.rng, { st with rng := st.rng + 1 })

/-- `AuthService.sendPasswordResetEmail` (the `requestReset`
operation).  Note the mail dispatch is awaited with no `try`/`catch`:
its failure propagates after the reset row is already persisted. -/
def sendPasswordResetEmail (st : AuthState) (email : String) :
    Except AuthError Unit × AuthState :=
  match findUserByEmail st email with
  | none => (.ok (), st)
  | some user =>
      let drawn := randomToken st
      let token := drawn.1
      let st1 := drawn.2
      let expiresAt := st1.now + 15
      let reset : PasswordReset :=
        { id := st1.nextResetId, userId := user.id, token := token,
          expiresAt := expiresAt }
      let st2 := { st1 with resets := st1.resets ++ [reset],
                            nextResetId := st1.nextResetId + 1 }
      let resetLink := "https://your-app.com/reset-password?token=" ++ token
      match sendEmail st2
          { recipient := user.email, subject := "Password Reset Request",
            body := "Click the link to reset your password: " ++ resetLink } with
      | .error e => (.error e, st2)
      | .ok st3 => (.ok (), st3)

/-- `AuthService.resetPassword`.  When the loaded relation dangles
(`reset.user` missing) the TypeScript would crash with a runtime error;
that is the `repoError` branch. -/
def resetPassword (st : AuthState) (token newPassword : String) :
    Except AuthError Unit × AuthState :=
  match findResetByToken st token with
  | none => (.error .invalidOrExpiredResetToken, st)
  | some reset =>
      if reset.expiresAt < st.now then
        (.error .invalidOrExpiredResetToken, st)
      else
        match findUserById st reset.userId with
        | none => (.error .repoError, st)
        | some user =>
            let user' := { user with password := bcryptHash newPassword }
            let st1 := saveUser st user'
            let st2 := { st1 with
                         resets := st1.resets.filter (fun r => r.id ≠ reset.id) }
            (.ok (), st2)

/-- The six orchestrator operations, as a single step alphabet for
trace-level invariants. -/
inductive Op where
  | opRegister (dto : RegisterDto)
  | opLogin (dto : LogInDto)
  | opRefresh (t : Token)
  | opRequestReset (email : String)
  | opResetPassword (token newPassword : String)
  | opPromote (requesterId targetUserId : String)
deriving DecidableEq, Repr

/-- The state reached after one operation (results discarded). -/
def applyOp (st : AuthState) (op : Op) : AuthState :=
  match op with
  | .opRegister dto => (register st dto).2
  | .opLogin dto => (login st dto).2
  | .opRefresh t => (refreshTokens st t).2
  | .opRequestReset email => (sendPasswordResetEmail st email).2
  | .opResetPassword token newPassword => (resetPassword st token newPassword).2
  | .opPromote r t => (promoteToAdmin st r t).2

/-- The id/role projection of the user table, for role-mutation
invariants. -/
def roles (st : AuthState) : List (String × UserRole) :=
  st.users.map (fun u => (u.id, u.role))

/-! ## Concrete fixture states used by witnesses and counterexamples -/

/-- Fixture: the empty initial state (no users at all, in particular no
`ADMIN`). -/
def exSt0 : AuthState :=
  { users := [], resets := [], sentEmails := [], now := 0,
    nextResetId := 0, rng := 0, mailFail := false, dbUpdateFail := false }

/-- Fixture: a `SUPER_ADMIN` user. -/
def exSuper : User :=
  { id := "s", email := "s@x.com", password := bcryptHash "pw",
    role := .SUPER_ADMIN, refreshToken := none }

/-- Fixture: an ordinary `USER`-role user. -/
def exPlain : User :=
  { id := "u", email := "u@x.com", password := bcryptHash "pw",
    role := .USER, refreshToken := none }

/-- Fixture: state holding the super admin and a plain user. -/
def exStS : AuthState := { exSt0 with users := [exSuper, exPlain] }

/-- Fixture: same state with the mail environment failing. -/
def exStM : AuthState := { exStS with mailFail := true }

/-- Fixture: a valid refresh token for user `u1`. -/
def exRT : Token :=
  .signed { sub := "u1", email := "a@x.com", secret := JWT_REFRESH_SECRET,
            iat := 0, exp := 10080 }

/-- Fixture: the user bound to `exRT` through the stored hash. -/
def exRTUser : User :=
  { id := "u1", email := "a@x.com", password := bcryptHash "pw",
    role := .USER, refreshToken := some (bcryptHash exRT) }

/-- Fixture: state for the refresh-rotation scenario. -/
def exStR : AuthState := { exSt0 with users := [exRTUser], now := 5 }

/-- Fixture: a pending password-reset request for `exPlain`. -/
def exReset : PasswordReset :=
  { id := 0, userId := "u", token := "tok-0", expiresAt := 20 }

/-- Fixture: state holding that pending request, before its expiry. -/
def exStReset : AuthState := { exStS with resets := [exReset], now := 10 }

/-! ## Helper lemmas about the repository operations -/

/-- `find?` over an id-keyed row rewrite commutes with the rewrite when
the rewrite does not move rows across the search predicate. -/
theorem find?_map_of_pred_inv (l : List User) (f : User → User)
    (p : User → Bool) (hpres : ∀ v, p (f v) = p v) :
    (l.map f).find? p = (l.find? p).map f := by
  induction l with
  | nil => rfl
  | cons a l ih =>
      by_cases ha : p a = true
      · rw [List.map_cons, List.find?_cons_of_pos _ (by rw [hpres]; exact ha),
          List.find?_cons_of_pos _ ha]
        simp
      · rw [List.map_cons, List.find?_cons_of_neg _ (by rw [hpres]; exact ha),
          List.find?_cons_of_neg _ ha, ih]

/-- The refresh-token rewrite of `updateUserRow` keeps each row's id,
so it is invisible to id search. -/
theorem update_pred_inv (uid target : String) (h : BHash Token) :
    ∀ v : User,
      ((if v.id == uid then { v with refreshToken := some h } else v).id == target) =
        (v.id == target) := by
  intro v
  by_cases hv : v.id == uid <;> simp [hv]

/-- Replacing the row whose id is `w.id` by `w` itself is also
invisible to search by that id. -/
theorem replace_pred_inv (w : User) :
    ∀ v : User, ((if v.id == w.id then w else v).id == w.id) = (v.id == w.id) := by
  intro v
  by_cases hv : v.id == w.id <;> simp [hv]

/-- The id/role projection ignores a refresh-token rewrite. -/
theorem roles_map_update (l : List User) (uid : String) (h : BHash Token) :
    (l.map (fun v => if v.id == uid then { v with refreshToken := some h } else v)).map
        (fun u => (u.id, u.role)) =
      l.map (fun u => (u.id, u.role)) := by
  induction l with
  | nil => rfl
  | cons a l ih =>
      simp only [List.map_cons, ih]
      congr 1
      by_cases ha : a.id == uid <;> simp [ha]

/-- The id/role projection of a row replacement whose id is `t`: every
row with id `t` takes the replacement's role, others are untouched. -/
theorem roles_map_replace (l : List User) (t : String) (w : User) (hw : w.id = t) :
    (l.map (fun v => if v.id == t then w else v)).map (fun u => (u.id, u.role)) =
      (l.map (fun u => (u.id, u.role))).map
        (fun q => if q.1 == t then (q.1, w.role) else q) := by
  induction l with
  | nil => rfl
  | cons a l ih =>
      simp only [List.map_cons, ih]
      congr 1
      by_cases ha : a.id == t
      · have ha' : a.id = t := by simpa using ha
        simp [ha, ha', hw]
      · simp [ha]

/-- Row lookup by id after `saveUser` of a row whose id already occurs
finds the saved row. -/
theorem findUserById_saveUser_self (st : AuthState) (w pre : User)
    (hfind : findUserById st w.id = some pre) :
    findUserById (saveUser st w) w.id = some w := by
  have hfind' : st.users.find? (fun u => u.id == w.id) = some pre := hfind
  have hmem : pre ∈ st.users := List.mem_of_find?_eq_some hfind'
  have hpre : (pre.id == w.id) = true := by
    have := List.find?_some hfind'
    simpa using this
  have hany : st.users.any (fun v => v.id == w.id) = true :=
    List.any_eq_true.mpr ⟨pre, hmem, hpre⟩
  unfold saveUser
  rw [if_pos hany]
  show (st.users.map (fun v => if v.id == w.id then w else v)).find?
      (fun u => u.id == w.id) = some w
  have hpreq : pre.id = w.id := by simpa using hpre
  rw [find?_map_of_pred_inv _ _ _ (replace_pred_inv w), hfind']
  simp [hpreq]

/-- Claim C2 counterexample: in `exStS` the super admin `"s"` promotes
themself; the call succeeds and both the returned and the persisted
row have role `ADMIN` — the operation lowered a `SUPER_ADMIN`'s role
and changed the requester's own role. -/
theorem C2_counterexample :
    exSuper.role = UserRole.SUPER_ADMIN ∧
    (promoteToAdmin exStS "s" "s").1 =
      .ok { id := "s", email := "s@x.com", password := bcryptHash "pw",
            role := UserRole.ADMIN, refreshToken := none } ∧
    findUserById (promoteToAdmin exStS "s" "s").2 "s" =
      some { id := "s", email := "s@x.com", password := bcryptHash "pw",
             role := UserRole.ADMIN, refreshToken := none } :=
  ⟨rfl, rfl, rfl⟩

/-- Claim C2 (amended): a successful `promoteToAdmin` requires a
`SUPER_ADMIN` requester and an existing target, and overwrites the
target's role with `ADMIN` unconditionally — whatever the target's
prior role was, including `SUPER_ADMIN` and including the requester
themself.  The original claim's "never lowers / no self-demotion"
part is false (see the counterexample). -/
theorem C2_promote_overwrites_role (st : AuthState) (r t : String) (u : User)
    (hok : (promoteToAdmin st r t).1 = .ok u) :
    ∃ requester target,
      findUserById st r = some requester ∧
      requester.role = UserRole.SUPER_ADMIN ∧
      findUserById st t = some target ∧
      u = { target with role := UserRole.ADMIN } := by
  unfold promoteToAdmin at hok
  cases hr : findUserById st r with
  | none => simp [hr] at hok
  | some requester =>
      simp only [hr] at hok
      by_cases hrole : requester.role = UserRole.SUPER_ADMIN
      · simp only [if_pos hrole] at hok
        cases ht : findUserById st t with
        | none => simp [ht] at hok
        | some target =>
            simp only [ht] at hok
            refine ⟨requester, target, rfl, hrole, rfl, ?_⟩
            have heq : ({ target with role := UserRole.ADMIN } : User) = u := by
              simpa using hok
            exact heq.symm
      · simp [if_neg hrole] at hok

/-- Witness for C2's amended theorem at the self-promotion input. -/
theorem C2_promote_overwrites_role_witness :
    ∃ requester target,
      findUserById exStS "s" = some requester ∧
      requester.role = UserRole.SUPER_ADMIN ∧
      findUserById exStS "s" = some target ∧
      ({ id := "s", email := "s@x.com", password := bcryptHash "pw",
         role := UserRole.ADMIN, refreshToken := none } : User) =
        { target with role := UserRole.ADMIN } :=
  C2_promote_overwrites_role exStS "s" "s"
    { id := "s", email := "s@x.com", password := bcryptHash "pw",
      role := UserRole.ADMIN, refreshToken := none } rfl

/-- Claim C9: `promoteToAdmin` fails with the unauthorized error when
the requester is absent or not a `SUPER_ADMIN`; fails with the (distinct)
target-not-found error when a `SUPER_ADMIN` requester names an absent
target; and with a `SUPER_ADMIN` requester and an existing target it
succeeds and persists the target with role `ADMIN`. -/
theorem C9_promoteToAdmin_cases (st : AuthState) (r t : String) :
    (findUserById st r = none →
      (promoteToAdmin st r t).1 = .error .unauthorizedPromote) ∧
    (∀ req, findUserById st r = some req → req.role ≠ UserRole.SUPER_ADMIN →
      (promoteToAdmin st r t).1 = .error .unauthorizedPromote) ∧
    (∀ req, findUserById st r = some req → req.role = UserRole.SUPER_ADMIN →
      findUserById st t = none →
      (promoteToAdmin st r t).1 = .error .targetNotFound) ∧
    (∀ req tgt, findUserById st r = some req → req.role = UserRole.SUPER_ADMIN →
      findUserById st t = some tgt →
      (promoteToAdmin st r t).1 = .ok { tgt with role := UserRole.ADMIN } ∧
      findUserById (promoteToAdmin st r t).2 t =
        some { tgt with role := UserRole.ADMIN }) ∧
    AuthError.unauthorizedPromote ≠ AuthError.targetNotFound := by
  refine ⟨?_, ?_, ?_, ?_, by simp⟩
  · intro h
    simp [promoteToAdmin, h]
  · intro req h hrole
    simp [promoteToAdmin, h, hrole]
  · intro req h hrole ht
    simp [promoteToAdmin, h, hrole, ht]
  · intro req tgt h hrole ht
    have htid : tgt.id = t := by simpa using List.find?_some ht
    have hw : findUserById st ({ tgt with role := UserRole.ADMIN } : User).id =
        some tgt := by
      simpa [htid] using ht
    have hsaved := findUserById_saveUser_self st
      { tgt with role := UserRole.ADMIN } tgt hw
    constructor
    · simp [promoteToAdmin, h, hrole, ht]
    · simp only [promoteToAdmin, h, hrole, if_true, ht]
      simpa [htid] using hsaved

/-- Witness for C9 covering all four outcomes on `exStS`. -/
theorem C9_promoteToAdmin_cases_witness :
    (promoteToAdmin exStS "ghost" "u").1 = .error .unauthorizedPromote ∧
    (promoteToAdmin exStS "u" "s").1 = .error .unauthorizedPromote ∧
    (promoteToAdmin exStS "s" "ghost").1 = .error .targetNotFound ∧
    (promoteToAdmin exStS "s" "u").1 =
      .ok { id := "u", email := "u@x.com", password := bcryptHash "pw",
            role := UserRole.ADMIN, refreshToken := none } :=
  ⟨(C9_promoteToAdmin_cases exStS "ghost" "u").1 rfl,
   (C9_promoteToAdmin_cases exStS "u" "s").2.1 exPlain rfl (by decide),
   (C9_promoteToAdmin_cases exStS "s" "ghost").2.2.1 exSuper rfl rfl rfl,
   ((C9_promoteToAdmin_cases exStS "s" "u").2.2.2.1 exSuper exPlain rfl rfl rfl).1⟩

/-- Claim C10: `refreshTokens` either returns a token pair or fails
with the one error kind `invalidRefreshToken`; the catch-all maps every
internal failure (bad signature, expiry, missing user, absent or
mismatching stored hash, and the injected persistence fault during
rotation) to that single kind. -/
theorem C10_refresh_single_error_kind (st : AuthState) (t : Token) :
    (∃ pair, (refreshTokens st t).1 = .ok pair) ∨
    (refreshTokens st t).1 = .error .invalidRefreshToken := by
  cases h : refreshTokensCore st t with
  | ok v =>
      obtain ⟨tokens, st1⟩ := v
      exact .inl ⟨tokens, by unfold refreshTokens; rw [h]⟩
  | error e =>
      exact .inr (by unfold refreshTokens; rw [h])

/-- A successful `updateUserRow` leaves the id/role projection of the
user table unchanged (it only rewrites stored refresh-token hashes). -/
theorem roles_updateUserRow (st st1 : AuthState) (uid : String) (h : BHash Token)
    (hok : updateUserRow st uid h = .ok st1) : roles st1 = roles st := by
  unfold updateUserRow at hok
  by_cases hdb : st.dbUpdateFail
  · rw [if_pos hdb] at hok
    exact absurd hok (by simp)
  · rw [if_neg hdb] at hok
    have hst : ({ st with users := st.users.map (fun v =>
        if v.id == uid then { v with refreshToken := some h } else v) } :
          AuthState) = st1 := by
      simpa using hok
    rw [← hst]
    unfold roles
    exact roles_map_update st.users uid h

/-- A successful pass through the body of `refreshTokens` leaves the
id/role projection unchanged. -/
theorem refreshTokensCore_roles (st : AuthState) (rt : Token)
    (tokens : TokenPair) (st1 : AuthState)
    (hok : refreshTokensCore st rt = .ok (tokens, st1)) :
    roles st1 = roles st := by
  unfold refreshTokensCore at hok
  cases hv : verifyJwt rt JWT_REFRESH_SECRET st.now with
  | none => rw [hv] at hok; exact absurd hok (by simp)
  | some payload =>
      rw [hv] at hok
      cases hu : findUserById st payload.sub with
      | none => simp [hu] at hok
      | some user =>
          simp only [hu] at hok
          cases hrt : user.refreshToken with
          | none => simp [hrt] at hok
          | some stored =>
              simp only [hrt] at hok
              by_cases hc : bcryptCompare rt stored = true
              · simp only [hc, if_true] at hok
                cases hupd : updateRefreshToken st user.id
                    (getTokens st user.id user.email).refreshToken with
                | error e => simp [hupd] at hok
                | ok st2 =>
                    simp only [hupd] at hok
                    have hpair : ((getTokens st user.id user.email, st2) :
                        TokenPair × AuthState) = (tokens, st1) := by
                      simpa using hok
                    have h2 : st2 = st1 := congrArg Prod.snd hpair
                    rw [← h2]
                    exact roles_updateUserRow st st2 user.id _ hupd
              · simp [hc] at hok

/-- `refreshTokens` leaves the id/role projection unchanged on every
path. -/
theorem refreshTokens_roles (st : AuthState) (t : Token) :
    roles (refreshTokens st t).2 = roles st := by
  unfold refreshTokens
  cases hcore : refreshTokensCore st t with
  | error e => rfl
  | ok v =>
      obtain ⟨tokens, st1⟩ := v
      exact refreshTokensCore_roles st t tokens st1 hcore

/-- `login` leaves the id/role projection unchanged on every path. -/
theorem login_roles (st : AuthState) (dto : LogInDto) :
    roles (login st dto).2 = roles st := by
  unfold login
  cases hval : validateUser st dto.email dto.password with
  | none => rfl
  | some u =>
      simp only []
      cases hupd : updateRefreshToken st u.id
          (getTokens st u.id u.email).refreshToken with
      | error e => rfl
      | ok st1 =>
          exact roles_updateUserRow st st1 u.id
            (bcryptHash (getTokens st u.id u.email).refreshToken) hupd

/-- `sendPasswordResetEmail` never touches the user table, on any of
its paths. -/
theorem sendPasswordResetEmail_users (st : AuthState) (email : String) :
    (sendPasswordResetEmail st email).2.users = st.users := by
  unfold sendPasswordResetEmail sendEmail randomToken
  cases hfind : findUserByEmail st email with
  | none => rfl
  | some user => by_cases hm : st.mailFail <;> simp [hm]

/-- Saving a row that keeps the id and role of the row found under the
search key leaves the id/role projection unchanged, provided ids are
unique. -/
theorem roles_saveUser_of_nodup (st : AuthState) (u w : User) (key : String)
    (hids : (st.users.map (fun v => v.id)).Nodup)
    (hfind : st.users.find? (fun v => v.id == key) = some u)
    (hkey : w.id = key) (hrole : w.role = u.role) :
    roles (saveUser st w) = roles st := by
  have hmem : u ∈ st.users := List.mem_of_find?_eq_some hfind
  have huid : u.id = key := by simpa using List.find?_some hfind
  have huw : u.id = w.id := by rw [huid, hkey]
  have hany : st.users.any (fun v => v.id == w.id) = true :=
    List.any_eq_true.mpr ⟨u, hmem, by simp [huw]⟩
  unfold saveUser
  rw [if_pos hany]
  unfold roles
  show (st.users.map (fun v => if v.id == w.id then w else v)).map
      (fun v => (v.id, v.role)) = st.users.map (fun v => (v.id, v.role))
  rw [List.map_map]
  apply List.map_congr_left
  intro v hv
  by_cases hvid : v.id == w.id
  · have hvid' : v.id = w.id := by simpa using hvid
    have hvu : v = u :=
      List.inj_on_of_nodup_map hids hv hmem (by rw [hvid', huw])
    simp [Function.comp, hvid, hvid', hrole, hvu, huw]
  · simp [Function.comp, hvid]

/-- `resetPassword` leaves the id/role projection unchanged on every
path (it only rewrites a password), provided ids are unique. -/
theorem resetPassword_roles (st : AuthState) (token newPassword : String)
    (hids : (st.users.map (fun v => v.id)).Nodup) :
    roles (resetPassword st token newPassword).2 = roles st := by
  unfold resetPassword
  cases hfind : findResetByToken st token with
  | none => rfl
  | some reset =>
      simp only []
      by_cases hexp : reset.expiresAt < st.now
      · rw [if_pos hexp]
      · rw [if_neg hexp]
        cases huser : findUserById st reset.userId with
        | none => rfl
        | some user =>
            have huser' : st.users.find? (fun v => v.id == reset.userId) =
                some user := huser
            have hkey : ({ user with password := bcryptHash newPassword } :
                User).id = reset.userId := by
              simpa using List.find?_some huser'
            exact roles_saveUser_of_nodup st user
              { user with password := bcryptHash newPassword } reset.userId
              hids huser' hkey rfl

/-- Appending rows does not disturb the id/role projection of the
prefix. -/
theorem take_roles_append (l1 l2 : List User) :
    ((l1 ++ l2).map (fun u => (u.id, u.role))).take
        (l1.map (fun u => (u.id, u.role))).length =
      l1.map (fun u => (u.id, u.role)) := by
  rw [List.map_append]
  exact List.take_left _ _

/-- Claim C1 counterexample: from the empty state (which has no
`ADMIN` user), one `register` call whose DTO carries role `ADMIN`
produces an `ADMIN` user — no `promoteToAdmin` call and no
`SUPER_ADMIN` requester were involved. -/
theorem C1_counterexample :
    roles exSt0 = [] ∧
    roles (register exSt0
        { email := "a@x.com", password := "pw", role := UserRole.ADMIN }).2 =
      [("user-0", UserRole.ADMIN)] :=
  ⟨rfl, rfl⟩

/-- Claim C1 (amended): `register` persists the role supplied in its
DTO, so registration can create users of any role, `ADMIN` and
`SUPER_ADMIN` included — the original "no path other than promotion"
claim is false.  What does hold: over every core operation (assuming
unique row ids), the id/role rows of the users already present are
preserved verbatim, except that a `promoteToAdmin` whose requester is
a `SUPER_ADMIN` rewrites the target id's role to `ADMIN`. -/
theorem C1_role_changes_only_promote_or_register (st : AuthState) (op : Op)
    (hids : (st.users.map (fun u => u.id)).Nodup) :
    (roles (applyOp st op)).take (roles st).length = roles st ∨
    ∃ r t, op = .opPromote r t ∧
      (∃ u, findUserById st r = some u ∧ u.role = UserRole.SUPER_ADMIN) ∧
      roles (applyOp st op) =
        (roles st).map (fun q => if q.1 == t then (q.1, UserRole.ADMIN) else q) := by
  cases op with
  | opRegister dto =>
      left
      show (roles (register st dto).2).take (roles st).length = roles st
      unfold register
      cases hfind : findUserByEmail st dto.email with
      | some u => exact List.take_length (roles st)
      | none => exact take_roles_append st.users _
  | opLogin dto =>
      left
      show (roles (login st dto).2).take (roles st).length = roles st
      rw [login_roles st dto]
      exact List.take_length (roles st)
  | opRefresh t =>
      left
      show (roles (refreshTokens st t).2).take (roles st).length = roles st
      rw [refreshTokens_roles st t]
      exact List.take_length (roles st)
  | opRequestReset email =>
      left
      show (roles (sendPasswordResetEmail st email).2).take (roles st).length =
        roles st
      unfold roles
      rw [sendPasswordResetEmail_users st email]
      exact List.take_length _
  | opResetPassword token newPassword =>
      left
      show (roles (resetPassword st token newPassword).2).take
          (roles st).length = roles st
      rw [resetPassword_roles st token newPassword hids]
      exact List.take_length (roles st)
  | opPromote r t =>
      unfold applyOp promoteToAdmin
      simp only []
      cases hr : findUserById st r with
      | none => exact .inl (List.take_length (roles st))
      | some requester =>
          by_cases hrole : requester.role = UserRole.SUPER_ADMIN
          · simp only []
            rw [if_pos hrole]
            cases ht : findUserById st t with
            | none => exact .inl (List.take_length (roles st))
            | some tgt =>
                simp only []
                right
                refine ⟨r, t, rfl, ⟨requester, hr, hrole⟩, ?_⟩
                have ht' : st.users.find? (fun v => v.id == t) = some tgt := ht
                have htgt : tgt.id = t := by simpa using List.find?_some ht'
                have hmem : tgt ∈ st.users := List.mem_of_find?_eq_some ht'
                have hany : st.users.any (fun v =>
                    v.id == ({ tgt with role := UserRole.ADMIN } : User).id) =
                      true :=
                  List.any_eq_true.mpr ⟨tgt, hmem, by simp⟩
                show roles (saveUser st { tgt with role := UserRole.ADMIN }) =
                  (roles st).map
                    (fun q => if q.1 == t then (q.1, UserRole.ADMIN) else q)
                unfold saveUser
                rw [if_pos hany]
                unfold roles
                simp only [htgt]
                exact roles_map_replace st.users t _ rfl
          · simp only []
            rw [if_neg hrole]
            exact .inl (List.take_length (roles st))

/-- Witness for C1's amended theorem: the promotion disjunct fires on
`exStS` for the `SUPER_ADMIN` requester `"s"`. -/
theorem C1_role_changes_witness :
    (roles (applyOp exStS (.opPromote "s" "u"))).take (roles exStS).length =
        roles exStS ∨
    ∃ r t, Op.opPromote "s" "u" = Op.opPromote r t ∧
      (∃ u, findUserById exStS r = some u ∧ u.role = UserRole.SUPER_ADMIN) ∧
      roles (applyOp exStS (.opPromote "s" "u")) =
        (roles exStS).map
          (fun q => if q.1 == t then (q.1, UserRole.ADMIN) else q) :=
  C1_role_changes_only_promote_or_register exStS (.opPromote "s" "u") (by decide)

/-- Claim C3 counterexample: in `exStM` (mail environment failing) the
email `"s@x.com"` exists, yet `sendPasswordResetEmail` surfaces the
delivery error to its caller instead of a generic success. -/
theorem C3_counterexample :
    exStM.mailFail = true ∧
    findUserByEmail exStM "s@x.com" = some exSuper ∧
    (sendPasswordResetEmail exStM "s@x.com").1 = .error .deliveryError :=
  ⟨rfl, rfl, rfl⟩

/-- Claim C3 (amended): when the mail dispatch fails for an existing
email, the reset request persisted beforehand stays in place unexpired
— but the awaited `sendEmail` has no `try`/`catch` around it, so the
dispatch error propagates to the caller of `requestReset` instead of
the generic success the spec promises. -/
theorem C3_mail_failure (st : AuthState) (email : String) (u : User)
    (hu : findUserByEmail st email = some u) (hm : st.mailFail = true) :
    sendPasswordResetEmail st email =
      (.error .deliveryError,
        { st with rng := st.rng + 1,
                  resets := st.resets ++
                    [{ id := st.nextResetId, userId := u.id,
                       token := "tok-" ++ toString st.rng,
                       expiresAt := st.now + 15 }],
                  nextResetId := st.nextResetId + 1 }) ∧
    ¬ st.now + 15 < st.now := by
  constructor
  · unfold sendPasswordResetEmail sendEmail randomToken
    rw [hu]
    simp only []
    rw [if_pos hm]
  · omega

/-- Witness for C3's amended theorem on `exStM`. -/
theorem C3_mail_failure_witness :
    sendPasswordResetEmail exStM "s@x.com" =
      (.error .deliveryError,
        { exStM with rng := exStM.rng + 1,
                     resets := exStM.resets ++
                       [{ id := exStM.nextResetId, userId := exSuper.id,
                          token := "tok-" ++ toString exStM.rng,
                          expiresAt := exStM.now + 15 }],
                     nextResetId := exStM.nextResetId + 1 }) ∧
    ¬ exStM.now + 15 < exStM.now :=
  C3_mail_failure exStM "s@x.com" exSuper rfl rfl

/-- Claim C6: for an email that belongs to no user, `requestReset`
returns the same generic success value as the success path and leaves
the state untouched: no reset row, no mail, no persistence
mutation. -/
theorem C6_unknown_email_noop (st : AuthState) (email : String)
    (h : findUserByEmail st email = none) :
    sendPasswordResetEmail st email = (.ok (), st) := by
  unfold sendPasswordResetEmail
  rw [h]

/-- Witness for C6 on `exStS` and an unknown address. -/
theorem C6_unknown_email_noop_witness :
    sendPasswordResetEmail exStS "nonexistent@x.com" = (.ok (), exStS) :=
  C6_unknown_email_noop exStS "nonexistent@x.com" rfl

/-- Claim C8: `register` fails with the email-conflict error and
leaves the state unchanged when the email is taken; otherwise it
appends a row holding only the bcrypt hash of the supplied password
and returns the identity as a `SafeUser`, a shape with no password
field. -/
theorem C8_register (st : AuthState) (dto : RegisterDto) :
    (∀ u, findUserByEmail st dto.email = some u →
      register st dto = (.error .emailAlreadyExists, st)) ∧
    (findUserByEmail st dto.email = none →
      register st dto =
        (.ok { id := "user-" ++ toString st.rng, email := dto.email,
               role := dto.role, refreshToken := none },
         { st with rng := st.rng + 1,
                   users := st.users ++
                     [{ id := "user-" ++ toString st.rng, email := dto.email,
                        password := bcryptHash dto.password, role := dto.role,
                        refreshToken := none }] })) := by
  constructor
  · intro u hu
    unfold register
    rw [hu]
  · intro h
    unfold register
    rw [h]

/-- Witness for C8: conflict on the taken email, success on a fresh
one. -/
theorem C8_register_witness :
    register exStS
        { email := "s@x.com", password := "pw2", role := UserRole.USER } =
      (.error .emailAlreadyExists, exStS) ∧
    register exStS
        { email := "new@x.com", password := "pw2", role := UserRole.USER } =
      (.ok { id := "user-0", email := "new@x.com", role := UserRole.USER,
             refreshToken := none },
       { exStS with rng := exStS.rng + 1,
                    users := exStS.users ++
                      [{ id := "user-0", email := "new@x.com",
                         password := bcryptHash "pw2", role := UserRole.USER,
                         refreshToken := none }] }) :=
  ⟨(C8_register exStS _).1 exSuper rfl, (C8_register exStS _).2 rfl⟩

/-- Claim C7: `login` surfaces one undifferentiated
invalid-credentials error both when the email is unknown and when the
password does not verify against the stored hash; on success it
returns the freshly minted pair and the returned state stores the
bcrypt hash of the new refresh token on the user's row. -/
theorem C7_login (st : AuthState) (dto : LogInDto) :
    (findUserByEmail st dto.email = none →
      (login st dto).1 = .error .invalidCredentials) ∧
    (∀ u, findUserByEmail st dto.email = some u →
      bcryptCompare dto.password u.password = false →
      (login st dto).1 = .error .invalidCredentials) ∧
    (∀ u, validateUser st dto.email dto.password = some u →
      st.dbUpdateFail = false →
      (login st dto).1 = .ok (getTokens st u.id u.email) ∧
      ∃ u', findUserById (login st dto).2 u.id = some u' ∧
        u'.refreshToken =
          some (bcryptHash (getTokens st u.id u.email).refreshToken)) := by
  refine ⟨?_, ?_, ?_⟩
  · intro h
    unfold login validateUser
    rw [h]
  · intro u hu hc
    unfold login validateUser
    rw [hu]
    simp only []
    rw [if_neg (by simp [hc])]
  · intro u hval hdb
    have hvu : ∃ w, w ∈ st.users ∧ w.id = u.id := by
      unfold validateUser at hval
      cases hw : findUserByEmail st dto.email with
      | none => rw [hw] at hval; exact absurd hval (by simp)
      | some w =>
          rw [hw] at hval
          simp only [] at hval
          by_cases hc : bcryptCompare dto.password w.password = true
          · rw [if_pos hc] at hval
            have hw' : st.users.find? (fun v => v.email == dto.email) =
                some w := hw
            have hsu : ({ id := w.id, email := w.email, role := w.role,
                          refreshToken := w.refreshToken } : SafeUser) = u := by
              simpa using hval
            exact ⟨w, List.mem_of_find?_eq_some hw',
              congrArg SafeUser.id hsu⟩
          · rw [if_neg hc] at hval; exact absurd hval (by simp)
    obtain ⟨w, hwmem, hwid⟩ := hvu
    have hex : (st.users.find? (fun v => v.id == u.id)).isSome :=
      List.find?_isSome.mpr ⟨w, hwmem, by simp [hwid]⟩
    obtain ⟨u0, hfind0⟩ := Option.isSome_iff_exists.mp hex
    have hu0 : (u0.id == u.id) = true := by
      have := List.find?_some hfind0
      simpa using this
    unfold login updateRefreshToken updateUserRow
    rw [hval]
    simp only []
    rw [if_neg (by simp [hdb])]
    refine ⟨rfl, ?_⟩
    refine ⟨{ u0 with refreshToken := some (bcryptHash (getTokens st u.id u.email).refreshToken) }, ?_, rfl⟩
    show ((st.users.map (fun v => if v.id == u.id then { v with refreshToken := some (bcryptHash (getTokens st u.id u.email).refreshToken) } else v)).find? (fun v => v.id == u.id)) = some { u0 with refreshToken := some (bcryptHash (getTokens st u.id u.email).refreshToken) }
    rw [find?_map_of_pred_inv _ _ _
      (update_pred_inv u.id u.id
        (bcryptHash (getTokens st u.id u.email).refreshToken)), hfind0]
    have hu0' : u0.id = u.id := by simpa using hu0
    simp [hu0']

/-- Witness for C7 covering the three outcomes on `exStS`. -/
theorem C7_login_witness :
    (login exStS { email := "nobody@x.com", password := "pw" }).1 =
      .error .invalidCredentials ∧
    (login exStS { email := "u@x.com", password := "bad" }).1 =
      .error .invalidCredentials ∧
    (login exStS { email := "u@x.com", password := "pw" }).1 =
      .ok (getTokens exStS "u" "u@x.com") :=
  ⟨(C7_login exStS { email := "nobody@x.com", password := "pw" }).1 rfl,
   (C7_login exStS { email := "u@x.com", password := "bad" }).2.1 exPlain rfl
     (by decide),
   ((C7_login exStS { email := "u@x.com", password := "pw" }).2.2
     { id := "u", email := "u@x.com", role := UserRole.USER,
       refreshToken := none } rfl rfl).1⟩

/-- `resetPassword` fails with the uniform invalid-or-expired error
whenever no row holds the presented token. -/
theorem resetPassword_no_token (st : AuthState) (token q : String)
    (h : findResetByToken st token = none) :
    (resetPassword st token q).1 = .error .invalidOrExpiredResetToken := by
  unfold resetPassword
  rw [h]

/-- Claim C5: `resetPassword` fails with the invalid-or-expired error
exactly when the token row is absent or its stored expiry lies before
the current time; on success it replaces the owner's password with the
bcrypt hash of the new password and deletes the request, so a second
sequential attempt with the same (unique) token fails with that same
error. -/
theorem C5_resetPassword (st : AuthState) (token p q : String) :
    ((resetPassword st token p).1 = .error .invalidOrExpiredResetToken ↔
      (findResetByToken st token = none ∨
        ∃ r, findResetByToken st token = some r ∧ r.expiresAt < st.now)) ∧
    (∀ r u, findResetByToken st token = some r → ¬ r.expiresAt < st.now →
      findUserById st r.userId = some u →
      (resetPassword st token p).1 = .ok () ∧
      (∃ u', findUserById (resetPassword st token p).2 u.id = some u' ∧
        u'.password = bcryptHash p) ∧
      (∀ r' ∈ (resetPassword st token p).2.resets, r'.id ≠ r.id) ∧
      ((∀ r' ∈ st.resets, r'.token = token → r' = r) →
        (resetPassword (resetPassword st token p).2 token q).1 =
          .error .invalidOrExpiredResetToken)) := by
  constructor
  · unfold resetPassword
    cases hr : findResetByToken st token with
    | none => simp
    | some r =>
        simp only []
        by_cases hexp : r.expiresAt < st.now
        · rw [if_pos hexp]
          exact iff_of_true rfl (Or.inr ⟨r, rfl, hexp⟩)
        · rw [if_neg hexp]
          cases hu : findUserById st r.userId with
          | none =>
              refine iff_of_false (by simp) ?_
              rintro (h | ⟨x, hx, hxe⟩)
              · simp at h
              · have hrx : r = x := by simpa using hx
                rw [hrx] at hexp
                exact hexp hxe
          | some user =>
              simp only []
              refine iff_of_false (by simp) ?_
              rintro (h | ⟨x, hx, hxe⟩)
              · simp at h
              · have hrx : r = x := by simpa using hx
                rw [hrx] at hexp
                exact hexp hxe
  · intro r u hr hexp hu
    have hr' : st.resets.find? (fun x => x.token == token) = some r := hr
    have hu' : st.users.find? (fun v => v.id == r.userId) = some u := hu
    have huid : u.id = r.userId := by
      have := List.find?_some hu'
      simpa using this
    have hany : st.users.any (fun v =>
        v.id == ({ u with password := bcryptHash p } : User).id) = true :=
      List.any_eq_true.mpr ⟨u, List.mem_of_find?_eq_some hu', by simp⟩
    unfold resetPassword
    rw [hr]
    simp only []
    rw [if_neg hexp]
    rw [hu]
    simp only []
    unfold saveUser
    rw [if_pos hany]
    refine ⟨by trivial, ?_, ?_, ?_⟩
    · refine ⟨{ u with password := bcryptHash p }, ?_, rfl⟩
      show ((st.users.map (fun v => if v.id == ({ u with password := bcryptHash p } : User).id then { u with password := bcryptHash p } else v)).find? (fun v => v.id == u.id)) = some { u with password := bcryptHash p }
      rw [find?_map_of_pred_inv st.users _ (fun v => v.id == u.id)
        (by intro v; by_cases hv : (v.id == u.id) = true <;> simp [hv])]
      rw [huid, hu']
      simp [huid]
    · intro r' hmem'
      have hfil := List.of_mem_filter hmem'
      simpa using hfil
    · intro huniq
      apply resetPassword_no_token
      show (st.resets.filter (fun x => x.id ≠ r.id)).find?
          (fun x => x.token == token) = none
      rw [List.find?_eq_none]
      intro x hx hxtok
      have hxmem : x ∈ st.resets := List.mem_of_mem_filter hx
      have hxid : x.id ≠ r.id := by simpa using List.of_mem_filter hx
      exact hxid (congrArg PasswordReset.id
        (huniq x hxmem (by simpa using hxtok)))

/-- Witness for C5 on `exStReset`: first consumption succeeds, second
fails with the uniform error. -/
theorem C5_resetPassword_witness :
    (resetPassword exStReset "tok-0" "np").1 = .ok () ∧
    (resetPassword (resetPassword exStReset "tok-0" "np").2 "tok-0"
        "np2").1 = .error .invalidOrExpiredResetToken := by
  have h := (C5_resetPassword exStReset "tok-0" "np" "np2").2 exReset exPlain
    rfl (by decide) rfl
  exact ⟨h.1, h.2.2.2 (by decide)⟩

/-- Structure of a successful pass through the body of
`refreshTokens`: the JWT verified, the subject's row was found, the
pair is freshly minted, and the returned state is the input state with
the bcrypt hash of the new refresh token installed on the subject's
row(s). -/
theorem refreshTokensCore_ok (st : AuthState) (rt : Token) (tokens : TokenPair)
    (st1 : AuthState) (hok : refreshTokensCore st rt = .ok (tokens, st1)) :
    ∃ payload user,
      verifyJwt rt JWT_REFRESH_SECRET st.now = some payload ∧
      findUserById st payload.sub = some user ∧
      tokens = getTokens st user.id user.email ∧
      st.dbUpdateFail = false ∧
      st1 = { st with users := st.users.map (fun v => if v.id == user.id then { v with refreshToken := some (bcryptHash (getTokens st user.id user.email).refreshToken) } else v) } := by
  unfold refreshTokensCore at hok
  cases hv : verifyJwt rt JWT_REFRESH_SECRET st.now with
  | none => rw [hv] at hok; exact absurd hok (by simp)
  | some payload =>
      rw [hv] at hok
      cases hu : findUserById st payload.sub with
      | none => simp [hu] at hok
      | some user =>
          simp only [hu] at hok
          cases hrt : user.refreshToken with
          | none => simp [hrt] at hok
          | some stored =>
              simp only [hrt] at hok
              by_cases hc : bcryptCompare rt stored = true
              · simp only [hc, if_true] at hok
                unfold updateRefreshToken updateUserRow at hok
                by_cases hdb : st.dbUpdateFail
                · rw [if_pos hdb] at hok
                  simp at hok
                · rw [if_neg hdb] at hok
                  have hpair := Except.ok.inj hok
                  have htok : getTokens st user.id user.email = tokens :=
                    congrArg Prod.fst hpair
                  have hst := congrArg Prod.snd hpair
                  exact ⟨payload, user, rfl, hu, htok.symm,
                    by simpa using hdb, hst.symm⟩
              · simp [hc] at hok

/-- Any erroring pass through the body surfaces as the single
invalid-refresh-token error of `refreshTokens`. -/
theorem refreshTokens_error_of_core (st : AuthState) (t : Token) (e : AuthError)
    (h : refreshTokensCore st t = .error e) :
    (refreshTokens st t).1 = .error .invalidRefreshToken := by
  unfold refreshTokens
  rw [h]

/-- Fixture: the pair minted by the successful refresh on `exStR`. -/
def exPair : TokenPair := getTokens exStR "u1" "a@x.com"

/-- Claim C4: after a successful refresh, the stored hash on the
subject's row in the returned state verifies exactly the newly issued
refresh token (rotation happened before the pair was returned), and
presenting the old, distinct token against that state fails with the
invalid-refresh-token error. -/
theorem C4_rotation (st : AuthState) (t : Token) (pair : TokenPair)
    (hok : (refreshTokens st t).1 = .ok pair) :
    ∃ payload u',
      verifyJwt t JWT_REFRESH_SECRET st.now = some payload ∧
      findUserById (refreshTokens st t).2 payload.sub = some u' ∧
      u'.refreshToken = some (bcryptHash pair.refreshToken) ∧
      (∀ t', bcryptCompare t' (bcryptHash pair.refreshToken) = true ↔
        t' = pair.refreshToken) ∧
      (t ≠ pair.refreshToken →
        (refreshTokens (refreshTokens st t).2 t).1 =
          .error .invalidRefreshToken) := by
  obtain ⟨v, hcoreok⟩ : ∃ v, refreshTokensCore st t = .ok v := by
    cases hc : refreshTokensCore st t with
    | ok v => exact ⟨v, rfl⟩
    | error e =>
        exfalso
        unfold refreshTokens at hok
        rw [hc] at hok
        exact absurd hok (by simp)
  obtain ⟨tokens, st1⟩ := v
  have hpairres : refreshTokens st t = (.ok tokens, st1) := by
    unfold refreshTokens
    rw [hcoreok]
  have hpr : tokens = pair := by
    have h1 := hok
    rw [hpairres] at h1
    simpa using h1
  subst hpr
  obtain ⟨payload, user, hv, hu, htok, hdb, hst⟩ :=
    refreshTokensCore_ok st t tokens st1 hcoreok
  subst htok
  subst hst
  have hu' : st.users.find? (fun v => v.id == payload.sub) = some user := hu
  have hfind1 : findUserById { st with users := st.users.map (fun v => if v.id == user.id then { v with refreshToken := some (bcryptHash (getTokens st user.id user.email).refreshToken) } else v) } payload.sub = some { user with refreshToken := some (bcryptHash (getTokens st user.id user.email).refreshToken) } := by
    show (st.users.map (fun v => if v.id == user.id then { v with refreshToken := some (bcryptHash (getTokens st user.id user.email).refreshToken) } else v)).find? (fun v => v.id == payload.sub) = _
    rw [find?_map_of_pred_inv _ _ _
      (update_pred_inv user.id payload.sub
        (bcryptHash (getTokens st user.id user.email).refreshToken)), hu']
    simp
  refine ⟨payload, { user with refreshToken := some (bcryptHash (getTokens st user.id user.email).refreshToken) }, hv, ?_, rfl, ?_, ?_⟩
  · rw [hpairres]
    exact hfind1
  · intro t'
    simp [bcryptCompare, bcryptHash]
  · intro hne
    rw [hpairres]
    apply refreshTokens_error_of_core _ _ AuthError.invalidRefreshToken
    show refreshTokensCore { st with users := st.users.map (fun v => if v.id == user.id then { v with refreshToken := some (bcryptHash (getTokens st user.id user.email).refreshToken) } else v) } t = .error .invalidRefreshToken
    unfold refreshTokensCore
    have hvr : verifyJwt t JWT_REFRESH_SECRET ({ st with users := st.users.map (fun v => if v.id == user.id then { v with refreshToken := some (bcryptHash (getTokens st user.id user.email).refreshToken) } else v) } : AuthState).now = some payload := hv
    rw [hvr]
    simp only []
    rw [hfind1]
    simp only []
    rw [if_neg (by simpa [bcryptCompare, bcryptHash] using hne)]

/-- Witness for C4 on `exStR`: the refresh succeeds with `exPair`, and
replaying the original token `exRT` afterwards fails. -/
theorem C4_rotation_witness :
    (refreshTokens exStR exRT).1 = .ok exPair ∧
    (refreshTokens (refreshTokens exStR exRT).2 exRT).1 =
      .error .invalidRefreshToken := by
  have h := C4_rotation exStR exRT exPair rfl
  obtain ⟨payload, u', hv, hfind, hrt, hiff, hsecond⟩ := h
  exact ⟨rfl, hsecond (by decide)⟩
